import Mathlib

/-!
# Verification of `generate_deals.py`

Shallow embedding of the deal-listing generation script. The script reads a
CSV with columns `RawTitle` and `RawDescription`, normalizes each row
(`clean_title` / `clean_desc`), sends one prompt per row to a text-generation
collaborator, parses the JSON reply (falling back to the cleaned text on any
exception), and writes an augmented CSV with three new columns.

The generation collaborator (network call + `json.loads` of its textual
reply) is external; it is modelled as an oracle producing, per row, either a
raised exception, a JSON-decode failure, or a parsed JSON value. The tabular
pipeline of `main` — `df.apply(..., axis=1, result_type="expand")` followed
by column extraction — is modelled including its failure paths: on a 0-row
frame, pandas's `apply_empty_result` returns a copy of the input frame
without calling the function, so `results["title"]` raises `KeyError`; when
no row's result dict carries a key, the expanded frame lacks that column
and the extraction raises `KeyError`; when a dict result is mixed with a
non-dict one, the expansion raises the mixing `ValueError`. A run that
raises writes no output.
-/

namespace GenerateDeals

/-! ## Character classes

Python's regex `\s` and `str.strip` whitespace set, restricted to ASCII
(the claims and scenarios only involve ASCII text). -/

def isWs (c : Char) : Bool :=
  c == ' ' || c == '\t' || c == '\n' || c == '\r' || c == '\x0b' || c == '\x0c'

/-! ## Text normalization (lines 71-72 of the script)

`df["clean_title"] = df["RawTitle"].astype(str).str.strip().str.title()`
`df["clean_desc"]  = df["RawDescription"].astype(str).str.replace(r"\s+", " ", regex=True).str.strip()`
-/

/-- `str.strip()` from the left: drop leading whitespace. -/
def stripLeft (l : List Char) : List Char := l.dropWhile isWs

/-- `str.strip()` from the right: drop trailing whitespace. -/
def stripRight : List Char → List Char
  | [] => []
  | c :: rest =>
    match stripRight rest with
    | [] => if isWs c then [] else [c]
    | r => c :: r

/-- Python `str.strip()`. -/
def stripBoth (l : List Char) : List Char := stripRight (stripLeft l)

/-- Scan for `re.sub(r"\s+", " ", s)`: the flag records whether the previous
character was whitespace (i.e. the current run already emitted its space). -/
def collapseWsAux : List Char → Bool → List Char
  | [], _ => []
  | c :: rest, prevWs =>
    if isWs c then
      if prevWs then collapseWsAux rest true
      else ' ' :: collapseWsAux rest true
    else c :: collapseWsAux rest false

/-- `re.sub(r"\s+", " ", s)`: replace each maximal whitespace run by one space. -/
def collapseWs (l : List Char) : List Char := collapseWsAux l false

/-- One step of Python `str.title()`: a cased (here: ASCII-letter) character is
titlecased when the previous character was not cased, lowercased otherwise;
uncased characters pass through. -/
def titleChar (prevCased : Bool) (c : Char) : Char :=
  if c.isAlpha then (if prevCased then c.toLower else c.toUpper) else c

/-- Python `str.title()` over a character list; the flag records whether the
previous character was cased. -/
def pyTitle : List Char → Bool → List Char
  | [], _ => []
  | c :: rest, prevCased => titleChar prevCased c :: pyTitle rest c.isAlpha

/-- `clean_title` column: `raw.strip().title()`. -/
def cleanTitle (s : String) : String := ⟨pyTitle (stripBoth s.data) false⟩

/-- `clean_desc` column: `re.sub(r"\s+", " ", raw).strip()`. -/
def cleanDesc (s : String) : String := ⟨stripBoth (collapseWs s.data)⟩

/-! ## JSON values

The collaborator's reply, after `json.loads`. JSON numbers are represented by
`Int` (their value never matters to the script, which only moves parsed
values around). A parsed object is a Python `dict`, so its key list has no
duplicates; `lookup` returns the first (hence only) binding. -/

inductive Json where
  | null
  | bool (b : Bool)
  | num (n : Int)
  | str (s : String)
  | arr (elems : List Json)
  | obj (fields : List (String × Json))

/-- Python `d[k]`-style access used by the column extraction, `Option`-valued:
`none` models a missing key (a NaN cell in the expanded result frame), and
any non-object value has no keys. -/
def Json.lookup : Json → String → Option Json
  | .obj fields, k => (fields.find? (fun kv => kv.1 == k)).map (fun kv => kv.2)
  | _, _ => none

/-! ## The generation collaborator

One row's interaction with `openai.ChatCompletion.create` followed by
`json.loads(response.choices[0].message.content.strip())`, as observed at the
boundary of the `try` block in `generate_listing` (lines 48-54). -/

inductive CallOutcome where
  /-- The remote call raised an exception (network failure, timeout, API
  error, malformed response object); `msg` is `str(exc)`. -/
  | raised (msg : String)
  /-- The remote call returned, but its textual payload failed `json.loads`
  with a `JSONDecodeError`; `msg` is `str(exc)`. -/
  | malformed (msg : String)
  /-- The textual payload parsed as the JSON value `v`. -/
  | parsed (v : Json)

/-! ## Rows (lines 65-80 of the script) -/

/-- One record of the input CSV (required columns only). -/
structure InRow where
  RawTitle : String
  RawDescription : String
deriving DecidableEq

/-- A row after the two normalized columns were added (lines 71-72). -/
structure CleanRow where
  RawTitle : String
  RawDescription : String
  clean_title : String
  clean_desc : String
deriving DecidableEq

/-- A row of the output frame: the four existing columns plus the three
assigned output columns (lines 76-78). A `none` cell is NaN (the row's
result dict lacked that key). -/
structure OutRow where
  RawTitle : String
  RawDescription : String
  clean_title : String
  clean_desc : String
  formattedTitle : Option Json
  htmlDescription : Option Json
  seoDescription : Option Json

/-- `build_prompt` (lines 32-43): the exact f-string rendered with the
cleaned title and description. (The source file contains the mojibake bytes
`â€“` where an en dash was intended; they are reproduced
verbatim.) -/
def build_prompt (title : String) (description : String) : String :=
  "\nYou are helping prepare deal listings. Rewrite the following info\n" ++
  "into a catchy product title, a short HTML-formatted description (with\n" ++
  "<h2>, <ul>, <li>, and a few emojis if appropriate), and a 1â€“2 sentence SEO description.\n" ++
  "\nDeal Title: " ++ title ++ "\nDeal Description: " ++ description ++
  "\n\nRespond in JSON with keys: title, html_description, seo_description.\n"

/-- `generate_listing` (lines 46-62): on a successful call whose reply
parses, the parsed JSON value is returned as-is (no key validation); if the
call raises or `json.loads` raises, the fallback dict is returned and the
exception is swallowed. The function is total: no failure propagates. -/
def generate_listing (row : CleanRow) (call : CallOutcome) : Json :=
  match call with
  | .parsed v => v
  | .raised msg | .malformed msg =>
    .obj [("title", .str row.clean_title),
          ("html_description", .str row.clean_desc),
          ("seo_description", .str ""),
          ("error", .str msg)]

/-- Lines 71-72: add `clean_title` and `clean_desc` to a row. -/
def addCleanColumns (r : InRow) : CleanRow :=
  { RawTitle := r.RawTitle, RawDescription := r.RawDescription,
    clean_title := cleanTitle r.RawTitle,
    clean_desc := cleanDesc r.RawDescription }

/-- Lines 76-78: assign the three output columns of one row from that row's
result dict (`results["title"]`, `results["html_description"]`,
`results["seo_description"]`); no other field of the result is read. -/
def mergeRow (r : CleanRow) (res : Json) : OutRow :=
  { RawTitle := r.RawTitle, RawDescription := r.RawDescription,
    clean_title := r.clean_title, clean_desc := r.clean_desc,
    formattedTitle := res.lookup "title",
    htmlDescription := res.lookup "html_description",
    seoDescription := res.lookup "seo_description" }

/-- The per-row stage of `df.apply(generate_listing, axis=1)` (line 74):
`generate_listing` is called once per row, in input order (`i` is the row
position, the oracle's index). Returns the list of per-row results and the
trace of prompts sent to the collaborator, one entry per remote call made.
On a 0-row frame this stage is never entered (see `applyExpand`). -/
def rowResults (oracle : Nat → CallOutcome) : Nat → List CleanRow → List Json × List String
  | _, [] => ([], [])
  | i, c :: cs =>
    let res := generate_listing c (oracle i)
    let rest := rowResults oracle (i + 1) cs
    (res :: rest.1, build_prompt c.clean_title c.clean_desc :: rest.2)

/-- An exception escaping lines 74-78 of `main` (pandas is not total). -/
inductive PandasError where
  /-- `results[k]`: `k` is not a column of the results frame (line 76-78). -/
  | keyError (k : String)
  /-- `DataFrame` construction from apply results mixing dicts with
  non-dict list-likes: `ValueError: Mixing dicts with non-Series may lead
  to ambiguous ordering.` (line 74). -/
  | valueErrorMixingDicts

def Json.isObj : Json → Bool
  | .obj _ => true
  | _ => false

def Json.isArr : Json → Bool
  | .arr _ => true
  | _ => false

/-- The value of `results` after line 74, by shape. -/
inductive ResultsFrame where
  /-- 0-row input: `apply_empty_result` returns a copy of the (empty) input
  frame without calling the function, so the columns are the input frame's
  four columns and none of the generated keys. -/
  | inputCopy
  /-- Every per-row result was a dict: the expanded frame's columns are the
  union of the dicts' keys; a row's cell is its dict's value at that key,
  or NaN when the key is absent. -/
  | dicts (results : List Json)
  /-- The first result was a non-dict sequence and no result was a dict:
  the expanded frame has positional integer columns (or, for ragged
  lengths, degenerates similarly) — either way no string-labelled column. -/
  | positional
  /-- The first result was a scalar: `wrap_results` builds a Series indexed
  by row position, which has no string label. -/
  | series

/-- `results[k]` (lines 76-78): the column named `k`, or `KeyError`. -/
def ResultsFrame.col : ResultsFrame → String → Except PandasError (List (Option Json))
  | .inputCopy, k =>
    if k == "RawTitle" || k == "RawDescription" || k == "clean_title" || k == "clean_desc"
    then .ok []
    else .error (.keyError k)
  | .dicts results, k =>
    if results.any (fun r => (r.lookup k).isSome)
    then .ok (results.map (fun r => r.lookup k))
    else .error (.keyError k)
  | .positional, _ => .error (.keyError "title")
  | .series, _ => .error (.keyError "title")

/-- `df.apply(..., axis=1, result_type="expand")` wrapping of the per-row
results (line 74): a 0-row frame short-circuits to a copy of the input
frame (the function is never called); all-dict results expand into a
keyed frame; a dict mixed with any non-dict raises the mixing `ValueError`;
a leading non-dict sequence expands positionally; a leading scalar yields a
Series. -/
def applyExpand (results : List Json) : Except PandasError ResultsFrame :=
  match results with
  | [] => .ok .inputCopy
  | r0 :: _ =>
    if results.all (fun r => r.isObj) then .ok (.dicts results)
    else if r0.isObj || r0.isArr then
      if results.any (fun r => r.isObj) then .error .valueErrorMixingDicts
      else .ok .positional
    else .ok .series

/-- Lines 76-78 in program order: extract the `title`, `html_description`
and `seo_description` columns; the first missing one raises. -/
def extractColumns (frame : ResultsFrame) :
    Except PandasError (List (Option Json) × List (Option Json) × List (Option Json)) :=
  match frame.col "title" with
  | .error e => .error e
  | .ok ts =>
    match frame.col "html_description" with
    | .error e => .error e
    | .ok hs =>
      match frame.col "seo_description" with
      | .error e => .error e
      | .ok ss => .ok (ts, hs, ss)

/-- Positional assembly of the output rows from the frame's existing columns
and the three extracted columns (lines 76-78 assign by index, which here
coincides with position). -/
def mergeColumns : List CleanRow → List (Option Json) → List (Option Json) →
    List (Option Json) → List OutRow
  | c :: cs, t :: ts, h :: hs, s :: ss =>
    { RawTitle := c.RawTitle, RawDescription := c.RawDescription,
      clean_title := c.clean_title, clean_desc := c.clean_desc,
      formattedTitle := t, htmlDescription := h, seoDescription := s } ::
      mergeColumns cs ts hs ss
  | _, _, _, _ => []

/-- `main` (lines 65-80): normalize (lines 71-72), apply `generate_listing`
across rows and expand (line 74), extract the three result columns
(lines 76-78), and serialize (line 80). The run either completes with the
output rows (in order) and the trace of remote calls made, or escapes with
the pandas exception — in which case nothing is written. -/
def main (rows : List InRow) (oracle : Nat → CallOutcome) :
    Except PandasError (List OutRow × List String) :=
  match applyExpand (rowResults oracle 0 (rows.map addCleanColumns)).1 with
  | .error e => .error e
  | .ok frame =>
    match extractColumns frame with
    | .error e => .error e
    | .ok (ts, hs, ss) =>
      .ok (mergeColumns (rows.map addCleanColumns) ts hs ss,
        (rowResults oracle 0 (rows.map addCleanColumns)).2)

/-- The rows of the written output file: a crashed run writes nothing. -/
def writtenRows : Except PandasError (List OutRow × List String) → Option (List OutRow)
  | .ok (outs, _) => some outs
  | .error _ => none

/-! ## Output serialization (`df.to_csv(output_csv, index=False)`, line 80)

The frame's columns, in pandas insertion order: the two input columns, the
two normalization columns added on lines 71-72, and the three output columns
assigned on lines 76-78. All of them are written. -/

def outputHeader : List String :=
  ["RawTitle", "RawDescription", "clean_title", "clean_desc",
   "Formatted Title", "HTML Description", "SEO Description"]

/-- A serialized cell: a string cell, a parsed-JSON cell, or NaN. -/
inductive Cell where
  | str (s : String)
  | val (v : Json)
  | nan

def cellOf : Option Json → Cell
  | some v => .val v
  | none => .nan

/-- The cells of one written row, aligned with `outputHeader`. -/
def rowCells (r : OutRow) : List Cell :=
  [.str r.RawTitle, .str r.RawDescription, .str r.clean_title, .str r.clean_desc,
   cellOf r.formattedTitle, cellOf r.htmlDescription, cellOf r.seoDescription]

/-! ## Entry point (lines 84-94) -/

/-- The message of the `SystemExit` raised on a missing credential. -/
def apiKeyMessage : String :=
  "OpenAI API key required via --api-key or OPENAI_API_KEY env var"

/-- `argparse` resolution of `--api-key` with
`default=os.getenv("OPENAI_API_KEY")`: the flag's value when given,
otherwise the environment variable (or nothing). -/
def effectiveApiKey (argKey envKey : Option String) : Option String :=
  match argKey with
  | some k => some k
  | none => envKey

/-- Python truthiness test `if not args.api_key` on an optional string:
`None` and the empty string are falsy. -/
def isFalsy : Option String → Bool
  | none => true
  | some s => s == ""

/-- Lines 90-94: if the resolved credential is falsy, raise
`SystemExit(message)` — process exits with status 1 and the message, before
`main` runs (no file is read or written, no remote call is made); otherwise
run `main`. -/
def entry (argKey envKey : Option String) (rows : List InRow)
    (oracle : Nat → CallOutcome) :
    Except (Nat × String) (Except PandasError (List OutRow × List String)) :=
  if isFalsy (effectiveApiKey argKey envKey) then
    .error (1, apiKeyMessage)
  else
    .ok (main rows oracle)

/-! ## Claim-level predicates -/

/-- No two consecutive whitespace characters. -/
def noTwoWs : List Char → Bool
  | a :: b :: rest => !(isWs a && isWs b) && noTwoWs (b :: rest)
  | _ => true

/-- Neither the first nor the last character is whitespace. -/
def noEdgeWs (l : List Char) : Bool :=
  (match l.head? with
   | some c => !isWs c
   | none => true) &&
  (match l.getLast? with
   | some c => !isWs c
   | none => true)

/-- Every whitespace-delimited word starts with an uppercase letter
(the flag records whether the scan is at a word boundary). -/
def wordsStartUpper : List Char → Bool → Bool
  | [], _ => true
  | c :: rest, atStart =>
    (!(atStart && !isWs c) || c.isUpper) && wordsStartUpper rest (isWs c)

/-- Every whitespace-delimited word whose first character is a letter starts
with an uppercase letter. -/
def wordsStartUpperIfAlpha : List Char → Bool → Bool
  | [], _ => true
  | c :: rest, atStart =>
    (!(atStart && c.isAlpha) || c.isUpper) && wordsStartUpperIfAlpha rest (isWs c)

/-! ## Character-class lemmas -/

lemma char_toNat_ofNat (m : Nat) (h : m < 55296) : (Char.ofNat m).toNat = m := by
  rw [Char.ofNat, dif_pos (Or.inl h)]
  simp [Char.ofNatAux, Char.toNat, UInt32.toNat]

lemma toNat_of_isLower {c : Char} (h : c.isLower = true) :
    97 ≤ c.toNat ∧ c.toNat ≤ 122 := by
  simp only [Char.isLower, Bool.and_eq_true, decide_eq_true_eq, ge_iff_le] at h
  obtain ⟨h1, h2⟩ := h
  rw [UInt32.le_def, BitVec.le_def] at h1 h2
  exact ⟨h1, h2⟩

lemma toNat_of_isUpper {c : Char} (h : c.isUpper = true) :
    65 ≤ c.toNat ∧ c.toNat ≤ 90 := by
  simp only [Char.isUpper, Bool.and_eq_true, decide_eq_true_eq, ge_iff_le] at h
  obtain ⟨h1, h2⟩ := h
  rw [UInt32.le_def, BitVec.le_def] at h1 h2
  exact ⟨h1, h2⟩

lemma isUpper_ofNat {m : Nat} (h1 : 65 ≤ m) (h2 : m ≤ 90) :
    (Char.ofNat m).isUpper = true := by
  have hval : (Char.ofNat m).toNat = m := char_toNat_ofNat m (by omega)
  simp only [Char.isUpper, Bool.and_eq_true, decide_eq_true_eq, ge_iff_le,
    UInt32.le_def, BitVec.le_def]
  refine ⟨?_, ?_⟩
  · show (65 : UInt32).toNat ≤ (Char.ofNat m).val.toNat
    rw [show (Char.ofNat m).val.toNat = m from hval]
    exact le_trans (by norm_num) h1
  · show (Char.ofNat m).val.toNat ≤ (90 : UInt32).toNat
    rw [show (Char.ofNat m).val.toNat = m from hval]
    exact le_trans h2 (by norm_num)

lemma isLower_ofNat {m : Nat} (h1 : 97 ≤ m) (h2 : m ≤ 122) :
    (Char.ofNat m).isLower = true := by
  have hval : (Char.ofNat m).toNat = m := char_toNat_ofNat m (by omega)
  simp only [Char.isLower, Bool.and_eq_true, decide_eq_true_eq, ge_iff_le,
    UInt32.le_def, BitVec.le_def]
  refine ⟨?_, ?_⟩
  · show (97 : UInt32).toNat ≤ (Char.ofNat m).val.toNat
    rw [show (Char.ofNat m).val.toNat = m from hval]
    exact le_trans (by norm_num) h1
  · show (Char.ofNat m).val.toNat ≤ (122 : UInt32).toNat
    rw [show (Char.ofNat m).val.toNat = m from hval]
    exact le_trans h2 (by norm_num)

lemma toUpper_eq (c : Char) :
    c.toUpper = if 97 ≤ c.toNat ∧ c.toNat ≤ 122 then Char.ofNat (c.toNat - 32) else c := by
  rw [Char.toUpper]

lemma toLower_eq (c : Char) :
    c.toLower = if 65 ≤ c.toNat ∧ c.toNat ≤ 90 then Char.ofNat (c.toNat + 32) else c := by
  rw [Char.toLower]

lemma isUpper_toUpper_of_isAlpha {c : Char} (h : c.isAlpha = true) :
    c.toUpper.isUpper = true := by
  rw [Char.isAlpha, Bool.or_eq_true] at h
  rcases h with h | h
  · obtain ⟨h1, h2⟩ := toNat_of_isUpper h
    rw [toUpper_eq, if_neg (by omega)]
    simp only [Char.isUpper, Bool.and_eq_true, decide_eq_true_eq, ge_iff_le,
      UInt32.le_def, BitVec.le_def]
    exact ⟨h1, h2⟩
  · obtain ⟨h1, h2⟩ := toNat_of_isLower h
    rw [toUpper_eq, if_pos (by omega)]
    exact isUpper_ofNat (by omega) (by omega)

lemma isAlpha_toUpper_of_isAlpha {c : Char} (h : c.isAlpha = true) :
    c.toUpper.isAlpha = true := by
  rw [Char.isAlpha, Bool.or_eq_true]
  exact Or.inl (isUpper_toUpper_of_isAlpha h)

lemma isAlpha_toLower_of_isAlpha {c : Char} (h : c.isAlpha = true) :
    c.toLower.isAlpha = true := by
  rw [Char.isAlpha, Bool.or_eq_true] at h ⊢
  rcases h with h | h
  · obtain ⟨h1, h2⟩ := toNat_of_isUpper h
    rw [toLower_eq, if_pos (by omega)]
    exact Or.inr (isLower_ofNat (by omega) (by omega))
  · obtain ⟨h1, h2⟩ := toNat_of_isLower h
    rw [toLower_eq, if_neg (by omega)]
    exact Or.inr h

lemma isAlpha_of_isWs {c : Char} (h : isWs c = true) : c.isAlpha = false := by
  simp only [isWs, Bool.or_eq_true, beq_iff_eq] at h
  obtain ((((h | h) | h) | h) | h) | h := h <;> subst h <;> decide

lemma isWs_of_isAlpha {c : Char} (h : c.isAlpha = true) : isWs c = false := by
  cases hw : isWs c
  · rfl
  · rw [isAlpha_of_isWs hw] at h
    exact absurd h (by simp)

/-! ## `titleChar` lemmas -/

lemma isAlpha_titleChar (p : Bool) (c : Char) :
    (titleChar p c).isAlpha = c.isAlpha := by
  cases ha : c.isAlpha
  · simp [titleChar, ha]
  · cases p <;>
      simp [titleChar, ha, isAlpha_toUpper_of_isAlpha ha, isAlpha_toLower_of_isAlpha ha]

lemma isWs_titleChar (p : Bool) (c : Char) : isWs (titleChar p c) = isWs c := by
  cases ha : c.isAlpha
  · simp [titleChar, ha]
  · rw [isWs_of_isAlpha ha,
      isWs_of_isAlpha (c := titleChar p c) (by rw [isAlpha_titleChar]; exact ha)]

lemma isUpper_titleChar_atStart {c : Char} (h : c.isAlpha = true) :
    (titleChar false c).isUpper = true := by
  unfold titleChar
  rw [if_pos h]
  exact isUpper_toUpper_of_isAlpha h

/-! ## Whitespace-structure lemmas -/

lemma noTwoWs_cons (a : Char) (l : List Char) :
    noTwoWs (a :: l) =
      ((match l.head? with
        | some d => !(isWs a && isWs d)
        | none => true) && noTwoWs l) := by
  cases l <;> simp [noTwoWs]

lemma noTwoWs_tail {a : Char} {l : List Char} (h : noTwoWs (a :: l) = true) :
    noTwoWs l = true := by
  rw [noTwoWs_cons, Bool.and_eq_true] at h
  exact h.2

lemma head?_collapseWsAux_true {l : List Char} {d : Char}
    (h : (collapseWsAux l true).head? = some d) : isWs d = false := by
  induction l with
  | nil => simp [collapseWsAux] at h
  | cons c rest ih =>
    by_cases hc : isWs c = true
    · rw [show collapseWsAux (c :: rest) true = collapseWsAux rest true by
        simp [collapseWsAux, hc]] at h
      exact ih h
    · rw [show collapseWsAux (c :: rest) true = c :: collapseWsAux rest false by
        simp [collapseWsAux, hc]] at h
      simp only [List.head?_cons, Option.some.injEq] at h
      rw [← h]
      exact Bool.not_eq_true _ ▸ hc

lemma noTwoWs_collapseWsAux (l : List Char) : ∀ b, noTwoWs (collapseWsAux l b) = true := by
  induction l with
  | nil => intro b; simp [collapseWsAux, noTwoWs]
  | cons c rest ih =>
    intro b
    by_cases hc : isWs c = true
    · cases b
      · rw [show collapseWsAux (c :: rest) false = ' ' :: collapseWsAux rest true by
          simp [collapseWsAux, hc]]
        rw [noTwoWs_cons, Bool.and_eq_true]
        refine ⟨?_, ih true⟩
        cases hh : (collapseWsAux rest true).head? with
        | none => rfl
        | some d => simp [head?_collapseWsAux_true hh]
      · rw [show collapseWsAux (c :: rest) true = collapseWsAux rest true by
          simp [collapseWsAux, hc]]
        exact ih true
    · rw [show collapseWsAux (c :: rest) b = c :: collapseWsAux rest false by
        simp [collapseWsAux, hc]]
      rw [noTwoWs_cons, Bool.and_eq_true]
      refine ⟨?_, ih false⟩
      cases (collapseWsAux rest false).head? with
      | none => rfl
      | some d => simp [Bool.not_eq_true _ ▸ hc]

lemma noTwoWs_dropWhile (p : Char → Bool) {l : List Char} (h : noTwoWs l = true) :
    noTwoWs (l.dropWhile p) = true := by
  induction l with
  | nil => simpa using h
  | cons c rest ih =>
    rw [List.dropWhile_cons]
    split
    · exact ih (noTwoWs_tail h)
    · exact h

lemma head?_stripRight {l : List Char} {d : Char} (h : (stripRight l).head? = some d) :
    l.head? = some d := by
  induction l with
  | nil => simp [stripRight] at h
  | cons c rest ih =>
    rw [stripRight] at h
    cases hr : stripRight rest with
    | nil =>
      rw [hr] at h
      by_cases hc : isWs c = true
      · rw [if_pos hc] at h
        simp at h
      · rw [if_neg hc] at h
        simpa using h
    | cons x xs =>
      rw [hr] at h
      simpa using h

lemma getLast?_stripRight_not_ws {l : List Char} {d : Char}
    (h : (stripRight l).getLast? = some d) : isWs d = false := by
  induction l with
  | nil => simp [stripRight] at h
  | cons c rest ih =>
    rw [stripRight] at h
    cases hr : stripRight rest with
    | nil =>
      rw [hr] at h
      by_cases hc : isWs c = true
      · rw [if_pos hc] at h
        simp at h
      · rw [if_neg hc] at h
        simp only [List.getLast?_singleton, Option.some.injEq] at h
        rw [← h]
        exact Bool.not_eq_true _ ▸ hc
    | cons x xs =>
      rw [hr, List.getLast?_cons_cons, ← hr] at h
      exact ih h

lemma noTwoWs_stripRight {l : List Char} (h : noTwoWs l = true) :
    noTwoWs (stripRight l) = true := by
  induction l with
  | nil => simpa using h
  | cons c rest ih =>
    rw [stripRight]
    cases hr : stripRight rest with
    | nil =>
      by_cases hc : isWs c = true
      · rw [if_pos hc]
        rfl
      · rw [if_neg hc]
        rw [noTwoWs_cons]
        rfl
    | cons x xs =>
      have hx : rest.head? = some x := head?_stripRight (hr ▸ rfl)
      rw [noTwoWs_cons, Bool.and_eq_true]
      refine ⟨?_, hr ▸ ih (noTwoWs_tail h)⟩
      rw [List.head?_cons]
      rw [noTwoWs_cons, hx, Bool.and_eq_true] at h
      exact h.1

lemma head?_stripBoth_not_ws {l : List Char} {d : Char}
    (h : (stripBoth l).head? = some d) : isWs d = false := by
  have hx := head?_stripRight h
  have h2 := List.head?_dropWhile_not isWs l
  rw [show (List.dropWhile isWs l).head? = some d from hx] at h2
  exact h2

/-! ## `pyTitle` lemmas -/

lemma head?_pyTitle (l : List Char) (p : Bool) :
    (pyTitle l p).head? = l.head?.map (titleChar p) := by
  cases l <;> rfl

lemma getLast?_pyTitle_ws :
    ∀ (l : List Char) (p : Bool) (d : Char), (pyTitle l p).getLast? = some d →
      ∃ e, l.getLast? = some e ∧ isWs d = isWs e := by
  intro l
  induction l with
  | nil =>
    intro p d h
    simp [pyTitle] at h
  | cons c rest ih =>
    intro p d h
    cases rest with
    | nil =>
      simp only [pyTitle, List.getLast?_singleton, Option.some.injEq] at h
      exact ⟨c, by simp, by rw [← h, isWs_titleChar]⟩
    | cons x xs =>
      have h' : (pyTitle (x :: xs) c.isAlpha).getLast? = some d := by
        rw [show pyTitle (c :: x :: xs) p =
              titleChar p c :: titleChar c.isAlpha x :: pyTitle xs x.isAlpha from rfl,
          List.getLast?_cons_cons] at h
        exact h
      obtain ⟨e, he, hw⟩ := ih c.isAlpha d h'
      exact ⟨e, by rw [List.getLast?_cons_cons]; exact he, hw⟩

lemma wordsStartUpperIfAlpha_pyTitle :
    ∀ (l : List Char) (p a : Bool), (a = true → p = false) →
      wordsStartUpperIfAlpha (pyTitle l p) a = true := by
  intro l
  induction l with
  | nil =>
    intro p a _
    rfl
  | cons c rest ih =>
    intro p a hpa
    rw [show pyTitle (c :: rest) p = titleChar p c :: pyTitle rest c.isAlpha from rfl,
      wordsStartUpperIfAlpha, Bool.and_eq_true]
    refine ⟨?_, ?_⟩
    · cases a
      · simp
      · have hp : p = false := hpa rfl
        subst hp
        cases hAlpha : c.isAlpha
        · simp [isAlpha_titleChar, hAlpha]
        · simp [isUpper_titleChar_atStart hAlpha]
    · rw [isWs_titleChar]
      exact ih c.isAlpha (isWs c) (fun hw => isAlpha_of_isWs hw)

/-! ## Row-pipeline lemmas -/

lemma rowResults_spec (oracle : Nat → CallOutcome) :
    ∀ (cs : List CleanRow) (n : Nat),
      (rowResults oracle n cs).1.length = cs.length ∧
      ∀ i : Nat, ((rowResults oracle n cs).1)[i]? =
        (cs[i]?).map (fun c => generate_listing c (oracle (n + i))) := by
  intro cs
  induction cs with
  | nil =>
    intro n
    exact ⟨rfl, by intro i; simp [rowResults]⟩
  | cons c cs ih =>
    intro n
    constructor
    · simp only [rowResults, List.length_cons]
      rw [(ih (n + 1)).1]
    · intro i
      cases i with
      | zero =>
        simp [rowResults]
      | succ j =>
        have hj := (ih (n + 1)).2 j
        simp only [rowResults, List.getElem?_cons_succ]
        rw [hj, show n + (j + 1) = n + 1 + j by omega]

lemma mergeColumns_map (cs : List CleanRow) (rs : List Json) :
    mergeColumns cs (rs.map (fun r => r.lookup "title"))
      (rs.map (fun r => r.lookup "html_description"))
      (rs.map (fun r => r.lookup "seo_description")) =
    List.zipWith mergeRow cs rs := by
  induction cs generalizing rs with
  | nil => cases rs <;> rfl
  | cons c cs ih =>
    cases rs with
    | nil => rfl
    | cons r rs =>
      simp only [List.map_cons, mergeColumns, List.zipWith_cons_cons, ih]
      rfl

lemma applyExpand_ok_cases {l : List Json} {f : ResultsFrame}
    (h : applyExpand l = .ok f) :
    (l = [] ∧ f = .inputCopy) ∨
    (f = .dicts l ∧ l.all (fun r => r.isObj) = true) ∨
    f = .positional ∨ f = .series := by
  cases l with
  | nil =>
    simp only [applyExpand, Except.ok.injEq] at h
    exact Or.inl ⟨rfl, h.symm⟩
  | cons r0 rs =>
    right
    simp only [applyExpand] at h
    by_cases hAll : ((r0 :: rs).all fun r => r.isObj) = true
    · rw [if_pos hAll] at h
      simp only [Except.ok.injEq] at h
      exact Or.inl ⟨h.symm, hAll⟩
    · rw [if_neg hAll] at h
      by_cases hHead : (r0.isObj || r0.isArr) = true
      · rw [if_pos hHead] at h
        by_cases hAny : ((r0 :: rs).any fun r => r.isObj) = true
        · rw [if_pos hAny] at h
          exact absurd h (by simp)
        · rw [if_neg hAny] at h
          simp only [Except.ok.injEq] at h
          exact Or.inr (Or.inl h.symm)
      · rw [if_neg hHead] at h
        simp only [Except.ok.injEq] at h
        exact Or.inr (Or.inr h.symm)

lemma col_dicts_ok {rs : List Json} {k : String} {ts : List (Option Json)}
    (h : (ResultsFrame.dicts rs).col k = .ok ts) :
    ts = rs.map (fun r => r.lookup k) := by
  simp only [ResultsFrame.col] at h
  by_cases hg : (rs.any fun r => (r.lookup k).isSome) = true
  · rw [if_pos hg] at h
    simp only [Except.ok.injEq] at h
    exact h.symm
  · rw [if_neg hg] at h
    exact absurd h (by simp)

lemma extractColumns_ok_shape {frame : ResultsFrame}
    {ts hs ss : List (Option Json)}
    (h : extractColumns frame = .ok (ts, hs, ss)) :
    ∃ rs : List Json, frame = .dicts rs ∧
      ts = rs.map (fun r => r.lookup "title") ∧
      hs = rs.map (fun r => r.lookup "html_description") ∧
      ss = rs.map (fun r => r.lookup "seo_description") := by
  cases frame with
  | inputCopy => exact absurd h (by simp [extractColumns, ResultsFrame.col])
  | positional => exact absurd h (by simp [extractColumns, ResultsFrame.col])
  | series => exact absurd h (by simp [extractColumns, ResultsFrame.col])
  | dicts rs =>
    refine ⟨rs, rfl, ?_⟩
    unfold extractColumns at h
    split at h
    · exact absurd h (by simp)
    · rename_i ts0 heqT
      split at h
      · exact absurd h (by simp)
      · rename_i hs0 heqH
        split at h
        · exact absurd h (by simp)
        · rename_i ss0 heqS
          simp only [Except.ok.injEq, Prod.mk.injEq] at h
          obtain ⟨h1, h2, h3⟩ := h
          exact ⟨h1 ▸ col_dicts_ok heqT, h2 ▸ col_dicts_ok heqH, h3 ▸ col_dicts_ok heqS⟩

lemma writtenRows_eq_some {rows : List InRow} {oracle : Nat → CallOutcome}
    {outs : List OutRow}
    (h : writtenRows (main rows oracle) = some outs) :
    outs = List.zipWith mergeRow (rows.map addCleanColumns)
      ((rowResults oracle 0 (rows.map addCleanColumns)).1) := by
  unfold main at h
  split at h
  · exact absurd h (by simp [writtenRows])
  · rename_i frame hE
    split at h
    · exact absurd h (by simp [writtenRows])
    · rename_i ts hs ss hX
      simp only [writtenRows, Option.some.injEq] at h
      obtain ⟨rs, hfr, hts, hhs, hss⟩ := extractColumns_ok_shape hX
      subst hfr hts hhs hss
      rw [← h, mergeColumns_map]
      rcases applyExpand_ok_cases hE with ⟨hnil, hic⟩ | ⟨hd, -⟩ | hp | hsr
      · exact absurd hic (by simp)
      · simp only [ResultsFrame.dicts.injEq] at hd
        rw [hd]
      · exact absurd hp (by simp)
      · exact absurd hsr (by simp)

/-- C2 (counterexample): the spec's scenario value is wrong on the code.
For `RawTitle = "  wireless   mouse  "` the computed `clean_title` is NOT
`"Wireless Mouse"`: `str.title()` capitalizes in place and the interior
whitespace run survives, since only `clean_desc` collapses whitespace. -/
theorem clean_title_scenario_counterexample :
    cleanTitle "  wireless   mouse  " ≠ "Wireless Mouse" := by decide

/-- C2 (amended): normalizing the scenario row yields
`clean_title = "Wireless   Mouse"` (interior whitespace preserved, ends
stripped, words title-cased) and
`clean_desc = "Great for travel. Compact."`. -/
theorem normalize_scenario :
    cleanTitle "  wireless   mouse  " = "Wireless   Mouse" ∧
    cleanDesc "Great   for   travel.\n\nCompact." = "Great for travel. Compact." := by
  constructor <;> decide

/-- C6: for every input string, `clean_desc` contains no two consecutive
whitespace characters and has no leading or trailing whitespace. -/
theorem clean_desc_ws_normalized (s : String) :
    noTwoWs (cleanDesc s).data = true ∧ noEdgeWs (cleanDesc s).data = true := by
  constructor
  · show noTwoWs (stripRight (List.dropWhile isWs (collapseWsAux s.data false))) = true
    exact noTwoWs_stripRight (noTwoWs_dropWhile isWs (noTwoWs_collapseWsAux _ false))
  · unfold noEdgeWs
    rw [Bool.and_eq_true]
    constructor
    · cases hh : (cleanDesc s).data.head? with
      | none => simp [hh]
      | some c =>
        have hh' : (stripBoth (collapseWs s.data)).head? = some c := hh
        have hw := head?_stripBoth_not_ws hh'
        simp [hh, hw]
    · cases hh : (cleanDesc s).data.getLast? with
      | none => simp [hh]
      | some c =>
        have hh' : (stripRight (stripLeft (collapseWs s.data))).getLast? = some c := hh
        have hw := getLast?_stripRight_not_ws hh'
        simp [hh, hw]

/-- C7 (counterexample): it is not true that every whitespace-delimited word
of a computed `clean_title` begins with an uppercase letter: for the input
`"123 deals"` the title is `"123 Deals"`, whose first word begins with the
digit `'1'` (`str.title()` only uppercases cased characters). -/
theorem clean_title_word_upper_counterexample :
    ¬ wordsStartUpper (cleanTitle "123 deals").data true = true := by decide

/-- C7 (amended): for every input string, `clean_title` has no leading or
trailing whitespace, and every whitespace-delimited word whose first
character is a letter begins with an uppercase letter. -/
theorem clean_title_words_upper (s : String) :
    noEdgeWs (cleanTitle s).data = true ∧
    wordsStartUpperIfAlpha (cleanTitle s).data true = true := by
  constructor
  · unfold noEdgeWs
    rw [Bool.and_eq_true]
    constructor
    · cases hh : (cleanTitle s).data.head? with
      | none => simp [hh]
      | some c =>
        have hh' : (pyTitle (stripBoth s.data) false).head? = some c := hh
        rw [head?_pyTitle] at hh'
        cases hb : (stripBoth s.data).head? with
        | none =>
          rw [hb] at hh'
          simp at hh'
        | some e =>
          rw [hb] at hh'
          simp only [Option.map_some', Option.some.injEq] at hh'
          have hw : isWs e = false := head?_stripBoth_not_ws hb
          have : isWs c = false := by rw [← hh', isWs_titleChar, hw]
          simp [hh, this]
    · cases hh : (cleanTitle s).data.getLast? with
      | none => simp [hh]
      | some c =>
        have hh' : (pyTitle (stripBoth s.data) false).getLast? = some c := hh
        obtain ⟨e, he, hw⟩ := getLast?_pyTitle_ws _ false c hh'
        have he' : (stripRight (stripLeft s.data)).getLast? = some e := he
        have hwe : isWs e = false := getLast?_stripRight_not_ws he'
        have : isWs c = false := by rw [hw, hwe]
        simp [hh, this]
  · show wordsStartUpperIfAlpha (pyTitle (stripBoth s.data) false) true = true
    exact wordsStartUpperIfAlpha_pyTitle _ false true (fun _ => rfl)

/-- C1 (counterexample): when the reply is valid JSON that omits the three
required keys, `generate_listing` does NOT return the fallback: for a row
with `clean_title = "T"`, the empty-object reply is returned unchecked, and
its `"title"` entry is absent rather than the fallback's `clean_title`. -/
theorem generate_listing_missing_keys_not_fallback :
    ¬ (generate_listing ⟨"t", "d", "T", "D"⟩
        (CallOutcome.parsed (Json.obj []))).lookup "title" = some (Json.str "T") := by
  intro h
  exact Option.noConfusion h

/-- C1 (amended): if the remote call raises or the reply is malformed JSON,
`generate_listing` returns the fallback dict — `title` is the row's
`clean_title`, `html_description` its `clean_desc`, `seo_description` the
empty string, and `error` the exception text — and, being total, propagates
no failure. (A reply that parses as valid JSON is returned as parsed, even
when it omits the required keys.) -/
theorem generate_listing_fallback_on_failure (row : CleanRow) (msg : String)
    (call : CallOutcome)
    (h : call = CallOutcome.raised msg ∨ call = CallOutcome.malformed msg) :
    (generate_listing row call).lookup "title" = some (Json.str row.clean_title) ∧
    (generate_listing row call).lookup "html_description" = some (Json.str row.clean_desc) ∧
    (generate_listing row call).lookup "seo_description" = some (Json.str "") ∧
    (generate_listing row call).lookup "error" = some (Json.str msg) := by
  rcases h with h | h <;> subst h <;> exact ⟨rfl, rfl, rfl, rfl⟩

/-- Witness for the amended C1 at a concrete row and failure. -/
theorem generate_listing_fallback_on_failure_witness :
    ((CallOutcome.raised "boom" : CallOutcome) = CallOutcome.raised "boom" ∨
      (CallOutcome.raised "boom" : CallOutcome) = CallOutcome.malformed "boom") ∧
    (generate_listing ⟨"t", "d", "T", "D"⟩ (CallOutcome.raised "boom")).lookup "title"
        = some (Json.str "T") ∧
    (generate_listing ⟨"t", "d", "T", "D"⟩ (CallOutcome.raised "boom")).lookup "html_description"
        = some (Json.str "D") ∧
    (generate_listing ⟨"t", "d", "T", "D"⟩ (CallOutcome.raised "boom")).lookup "seo_description"
        = some (Json.str "") ∧
    (generate_listing ⟨"t", "d", "T", "D"⟩ (CallOutcome.raised "boom")).lookup "error"
        = some (Json.str "boom") :=
  ⟨Or.inl rfl,
    generate_listing_fallback_on_failure ⟨"t", "d", "T", "D"⟩ "boom"
      (CallOutcome.raised "boom") (Or.inl rfl)⟩

/-- C3 (code evaluated at the failing input): on the empty table the apply
step short-circuits to a copy of the input frame — `generate_listing` is
never called, so no remote call is made and no `title` column exists — and
the extraction at line 76 raises `KeyError("title")`: the run errors and no
output file is written, contradicting the claimed header-only output and
error-free completion. -/
theorem empty_table_keyerror (oracle : Nat → CallOutcome) :
    main [] oracle = Except.error (PandasError.keyError "title") ∧
    writtenRows (main [] oracle) = none ∧
    rowResults oracle 0 [] = ([], []) :=
  ⟨rfl, rfl, rfl⟩

/-- C4 (code evaluated at a failing input): a one-row table whose reply
parses to the valid-but-empty JSON object `{}` leaves the expanded results
frame without a `title` column, so line 76 raises `KeyError("title")`: the
run crashes and writes zero output rows for one input row, violating the
one-output-row-per-input-row invariant. -/
theorem keyerror_drops_rows :
    main [(⟨"a", "b"⟩ : InRow)] (fun _ => CallOutcome.parsed (Json.obj [])) =
      Except.error (PandasError.keyError "title") ∧
    writtenRows (main [(⟨"a", "b"⟩ : InRow)]
      (fun _ => CallOutcome.parsed (Json.obj []))) = none :=
  ⟨rfl, rfl⟩

/-- C8: when the credential comes neither from `--api-key` nor from
`OPENAI_API_KEY`, the process stops with `SystemExit`: exit status 1
(non-zero) and the descriptive message — for every table and oracle, i.e.
before any input is read, any output written, or any remote call made
(the error branch never runs `main`). -/
theorem missing_api_key_exits (rows : List InRow) (oracle : Nat → CallOutcome) :
    entry none none rows oracle = Except.error (1, apiKeyMessage) ∧
    apiKeyMessage = "OpenAI API key required via --api-key or OPENAI_API_KEY env var" :=
  ⟨rfl, rfl⟩

/-- C9 (counterexample): for a non-empty table, no output table containing
the normalization columns need be written at all: when the only row's reply
parses to `{}`, line 76 raises `KeyError("title")` and the run crashes
before `to_csv`, so nothing is written. -/
theorem clean_columns_written_counterexample :
    (([(⟨"a", "b"⟩ : InRow)]) ≠ []) ∧
    writtenRows (main [(⟨"a", "b"⟩ : InRow)]
      (fun _ => CallOutcome.parsed (Json.obj []))) = none :=
  ⟨List.cons_ne_nil _ _, rfl⟩

/-- C9 (amended): whenever the run completes and writes an output table,
that table has the two normalization columns `clean_title` and `clean_desc`
(positions 2 and 3 of the header, between the original columns and the
three documented output columns), and each written row carries the
normalized title and description of its input row there; a run that crashes
writes nothing. -/
theorem clean_columns_written (rows : List InRow) (oracle : Nat → CallOutcome)
    (outs : List OutRow)
    (hok : writtenRows (main rows oracle) = some outs)
    (i : Nat) (r : InRow) (hrow : rows[i]? = some r) :
    outputHeader[2]? = some "clean_title" ∧
    outputHeader[3]? = some "clean_desc" ∧
    ∃ out : OutRow, outs[i]? = some out ∧
      (rowCells out)[2]? = some (Cell.str (cleanTitle r.RawTitle)) ∧
      (rowCells out)[3]? = some (Cell.str (cleanDesc r.RawDescription)) := by
  have houts := writtenRows_eq_some hok
  have hcs : (rows.map addCleanColumns)[i]? = some (addCleanColumns r) := by
    rw [List.getElem?_map, hrow, Option.map_some']
  have hres : ((rowResults oracle 0 (rows.map addCleanColumns)).1)[i]? =
      some (generate_listing (addCleanColumns r) (oracle i)) := by
    rw [(rowResults_spec oracle (rows.map addCleanColumns) 0).2 i, hcs,
      Option.map_some', Nat.zero_add]
  refine ⟨rfl, rfl,
    mergeRow (addCleanColumns r) (generate_listing (addCleanColumns r) (oracle i)),
    ?_, rfl, rfl⟩
  rw [houts, List.getElem?_zipWith, hcs, hres]

/-- Witness for the amended C9 at a concrete one-row table whose call
raises (the fallback result is a dict, so the run completes). -/
theorem clean_columns_written_witness :
    (writtenRows (main [(⟨"  a", "b  c"⟩ : InRow)] (fun _ => CallOutcome.raised "e")) =
      some [{ RawTitle := "  a", RawDescription := "b  c",
              clean_title := "A", clean_desc := "b c",
              formattedTitle := some (Json.str "A"),
              htmlDescription := some (Json.str "b c"),
              seoDescription := some (Json.str "") }]) ∧
    (([(⟨"  a", "b  c"⟩ : InRow)])[0]? = some (⟨"  a", "b  c"⟩ : InRow)) ∧
    outputHeader[2]? = some "clean_title" ∧
    outputHeader[3]? = some "clean_desc" ∧
    (∃ out : OutRow,
      ([{ RawTitle := "  a", RawDescription := "b  c",
          clean_title := "A", clean_desc := "b c",
          formattedTitle := some (Json.str "A"),
          htmlDescription := some (Json.str "b c"),
          seoDescription := some (Json.str "") }] : List OutRow)[0]? = some out ∧
      (rowCells out)[2]? = some (Cell.str (cleanTitle "  a")) ∧
      (rowCells out)[3]? = some (Cell.str (cleanDesc "b  c"))) := by
  obtain ⟨h2, h3, hout⟩ :=
    clean_columns_written [⟨"  a", "b  c"⟩] (fun _ => CallOutcome.raised "e")
      [{ RawTitle := "  a", RawDescription := "b  c",
         clean_title := "A", clean_desc := "b c",
         formattedTitle := some (Json.str "A"),
         htmlDescription := some (Json.str "b c"),
         seoDescription := some (Json.str "") }]
      rfl 0 ⟨"  a", "b  c"⟩ rfl
  exact ⟨rfl, rfl, h2, h3, hout⟩

/-- C10: the diagnostic `error` string never reaches the output: the written
header has no `error` column, and the merged output row depends only on the
`title`, `html_description` and `seo_description` fields of the generation
result — two results agreeing on those three keys (for instance differing
only in `error`) merge to identical output rows. -/
theorem error_field_not_written (r : CleanRow) (res res' : Json)
    (ht : res.lookup "title" = res'.lookup "title")
    (hh : res.lookup "html_description" = res'.lookup "html_description")
    (hs : res.lookup "seo_description" = res'.lookup "seo_description") :
    "error" ∉ outputHeader ∧ mergeRow r res = mergeRow r res' := by
  constructor
  · decide
  · simp only [mergeRow, ht, hh, hs]

/-- Witness for C10: a fallback-shaped result with an `error` field merges
exactly like the same result without it. -/
theorem error_field_not_written_witness :
    ((Json.obj [("title", Json.str "T"), ("html_description", Json.str "H"),
        ("seo_description", Json.str "S"), ("error", Json.str "boom")]).lookup "title"
      = (Json.obj [("title", Json.str "T"), ("html_description", Json.str "H"),
        ("seo_description", Json.str "S")]).lookup "title") ∧
    ("error" ∉ outputHeader ∧
      mergeRow ⟨"a", "b", "A", "B"⟩
        (Json.obj [("title", Json.str "T"), ("html_description", Json.str "H"),
          ("seo_description", Json.str "S"), ("error", Json.str "boom")]) =
      mergeRow ⟨"a", "b", "A", "B"⟩
        (Json.obj [("title", Json.str "T"), ("html_description", Json.str "H"),
          ("seo_description", Json.str "S")])) :=
  ⟨rfl, error_field_not_written ⟨"a", "b", "A", "B"⟩ _ _ rfl rfl rfl⟩

end GenerateDeals
